import Mathlib

/-
Shallow embedding of the discord game bot (src/run.py): the SQLite data
model (tables Users, Games, UserGames), the game-identity resolution
helpers (get_game_info, search_steam_game) and the stateful slash-command
handlers (_linksteam, _unlinksteam, update_owned_games, _markinterest,
_removeinterest, _listinterestedgames chunking, _players).

Remote collaborators (the Steam web API and the store search page) are
modelled as function parameters: `details` stands for the appdetails
endpoint keyed by the exact app-id string placed in the URL, `search` for
the store search page scrape, `validate`/`profile`/`owned` for the
ISteamUser / IPlayerService endpoints.  Returning `none` models a request
failure or an empty provider answer, exactly the cases where the Python
helpers return None/False.
-/

namespace GameBot

/-- Row of the Users table: `discord_id INTEGER PRIMARY KEY`,
`steam_id INTEGER UNIQUE NOT NULL` (run.py, create_database_tables). -/
structure UserRow where
  discord_id : Nat
  steam_id : Nat
deriving DecidableEq

/-- Row of the Games table: `app_id INTEGER PRIMARY KEY`, `name TEXT NOT NULL`. -/
structure GameRow where
  app_id : Nat
  name : String
deriving DecidableEq

/-- Row of the UserGames table: `discord_id INTEGER`, `app_id INTEGER`,
`interested BOOLEAN DEFAULT FALSE`, `PRIMARY KEY (discord_id, app_id)`.
This is the full column list of the CREATE TABLE statement: there is no
`installed` column in the schema. -/
structure UserGameRow where
  discord_id : Nat
  app_id : Nat
  interested : Bool
deriving DecidableEq

/-- Column names of the Users table as created by create_database_tables. -/
def usersColumns : List String := ["discord_id", "steam_id"]

/-- Column names of the Games table as created by create_database_tables. -/
def gamesColumns : List String := ["app_id", "name"]

/-- Column names of the UserGames table as created by create_database_tables. -/
def userGamesColumns : List String := ["discord_id", "app_id", "interested"]

/-- Database state: the three tables, rows listed in insertion (rowid)
order, which is the order unordered SELECTs return them in. -/
structure DB where
  users : List UserRow
  games : List GameRow
  userGames : List UserGameRow
deriving DecidableEq

/-- String of ASCII digits, nonempty: models Python `str.isnumeric()` /
`str.isdigit()` on the inputs the bot receives. -/
def isNumericStr (s : String) : Bool :=
  !s.toList.isEmpty && s.toList.all Char.isDigit

/-- Value of Python `int(...)` on a digit string, and also the number
SQLite INTEGER affinity converts such a TEXT value to when it is compared
against or stored into an INTEGER column. -/
def digitsToNat (l : List Char) : Nat :=
  l.foldl (fun n c => 10 * n + (c.toNat - 48)) 0

/-- Numeric value of a digit string (see digitsToNat). -/
def strToNat (s : String) : Nat := digitsToNat s.toList

/-- Shape check of _linksteam: the Steam ID must be numeric and start with
the fixed prefix 7656119 (run.py line 296). -/
def steamIdShapeOk (s : String) : Bool :=
  isNumericStr s && ("7656119".toList).isPrefixOf s.toList

/-- Result of get_game_info: the dict `{name, header_image, steam_url,
app_id}`; only `app_id` (kept as the string the caller passed, as in the
Python dict) and `name` matter to the logic, the two URL fields are
derived text. -/
structure GameInfo where
  app_id : String
  name : String
deriving DecidableEq

/-- Embedding of get_game_info (run.py 103-123): query the appdetails
endpoint with the given app-id string; `none` models both a failed request
and the no-data answer, the two cases where the Python function returns
None. -/
def get_game_info (details : String → Option String) (app_id : String) :
    Option GameInfo :=
  (details app_id).map (fun n => { app_id := app_id, name := n })

/-- One `a.search_result_row` element of the store search page: its
`data-ds-appid` attribute (the raw identifier scored by the fuzzy match)
and its href split at `/` (the app id is read from segment 4). -/
structure SearchEntry where
  data_ds_appid : String
  href_segments : List String
deriving DecidableEq

/-- App-id string extracted from a search entry: `game_url.split('/')[4]`
(run.py line 155). -/
def extract_app_id (e : SearchEntry) : String := e.href_segments.getD 4 ""

/-- Substring test on character lists: some suffix of the haystack starts
with the pattern. -/
def containsSeq (pat hay : List Char) : Bool :=
  hay.tails.any (fun t => pat.isPrefixOf t)

/-- SQLite `name LIKE '%term%'`: case-insensitive (ASCII) substring test. -/
def likeSubstring (term name : String) : Bool :=
  containsSeq (term.toList.map Char.toLower) (name.toList.map Char.toLower)

/-- Local-cache lookup of search_steam_game (run.py 127-134): first Games
row whose name matches `LIKE '%game_name%'`, in storage order. -/
def localLike (db : DB) (term : String) : Option Nat :=
  (db.games.find? (fun g => likeSubstring term g.name)).map (fun g => g.app_id)

/-- Stable insertion into a list sorted by strictly descending key: the
new element goes in front of the first element whose key is not larger,
so among equal keys earlier elements stay first. -/
def insortDesc {α : Type} (key : α → Nat) (x : α) : List α → List α
  | [] => [x]
  | y :: ys => if key y ≤ key x then x :: y :: ys else y :: insortDesc key x ys

/-- Stable sort by descending key: the embedding of Python
`list.sort(key=..., reverse=True)`, which is stable and keeps ties in
original order. -/
def sortDesc {α : Type} (key : α → Nat) : List α → List α
  | [] => []
  | x :: xs => insortDesc key x (sortDesc key xs)

/-- Embedding of search_steam_game (run.py 125-159): local LIKE lookup
first; otherwise scrape the search page, score every entry by
`score game_name entry.data_ds_appid` (fuzz.partial_ratio applied to the
raw `data-ds-appid` attribute), stable-sort descending, take the first,
and fetch details for the app id extracted from its URL.  `score` is the
opaque fuzzy metric, `search` the scrape; an empty result list means no
search results (the None return). -/
def search_steam_game (score : String → String → Nat)
    (search : String → List SearchEntry) (details : String → Option String)
    (db : DB) (game_name : String) : Option GameInfo :=
  match localLike db game_name with
  | some app_id => get_game_info details (toString app_id)
  | none =>
    let results := search game_name
    if results.isEmpty then none
    else
      match (sortDesc (fun r => score game_name r.data_ds_appid) results).head? with
      | some first => get_game_info details (extract_app_id first)
      | none => none

/-- Token resolution of _markinterest (run.py 432-446): an entirely
numeric token goes straight to get_game_info with the token itself as the
app-id string; any other token goes through search_steam_game. -/
def resolveToken (score : String → String → Nat)
    (search : String → List SearchEntry) (details : String → Option String)
    (db : DB) (game : String) : Option GameInfo :=
  if isNumericStr game then get_game_info details game
  else search_steam_game score search details db game

/-- SQLite comparison of a bound TEXT app-id parameter against the
INTEGER-affinity app_id column: the digit string is converted to its
numeric value and compared numerically. -/
def appIdMatches (s : String) (a : Nat) : Bool :=
  isNumericStr s && (strToNat s == a)

/-- Plain INSERT into Users (run.py 318-321): fails (sqlite3.IntegrityError,
i.e. `none`) when the discord_id primary key or the steam_id UNIQUE
constraint is violated, otherwise appends the row. -/
def insertUser (db : DB) (d s : Nat) : Option DB :=
  if db.users.any (fun u => u.discord_id == d)
      || db.users.any (fun u => u.steam_id == s) then none
  else some { db with users := db.users ++ [{ discord_id := d, steam_id := s }] }

/-- Membership of an app id in the Games table. -/
def hasGame (db : DB) (a : Nat) : Bool :=
  db.games.any (fun g => g.app_id == a)

/-- Membership of a (discord_id, app_id) key in the UserGames table. -/
def hasUserGame (db : DB) (d a : Nat) : Bool :=
  db.userGames.any (fun r => r.discord_id == d && r.app_id == a)

/-- `INSERT OR IGNORE INTO Games` (run.py 248-251): append only when the
app_id primary key is absent; an existing row (and its name) is left
untouched. -/
def insertOrIgnoreGame (a : Nat) (n : String) (db : DB) : DB :=
  if hasGame db a then db
  else { db with games := db.games ++ [{ app_id := a, name := n }] }

/-- `INSERT OR IGNORE INTO UserGames` (run.py 258-261): append only when
the (discord_id, app_id) primary key is absent; `interested` takes its
schema default FALSE. -/
def insertOrIgnoreUserGame (d a : Nat) (db : DB) : DB :=
  if hasUserGame db d a then db
  else { db with userGames := db.userGames ++
          [{ discord_id := d, app_id := a, interested := false }] }

/-- Body of the per-game loop of update_owned_games: Games upsert then
UserGames upsert. -/
def syncStep (d : Nat) (db : DB) (g : Nat × String) : DB :=
  insertOrIgnoreUserGame d g.1 (insertOrIgnoreGame g.1 g.2 db)

/-- Embedding of the successful path of update_owned_games (run.py
242-269): fold the owned list (pairs appid, name) through the two
INSERT OR IGNORE statements.  The provider-failure path returns False
before touching the state and is handled at the call sites. -/
def update_owned_games (d : Nat) (gs : List (Nat × String)) (db : DB) : DB :=
  gs.foldl (syncStep d) db

/-- Steam profile as returned by GetPlayerSummaries (run.py 181-205):
persona name, the numeric account id (stored into the INTEGER steam_id
column), and the avatar URL. -/
structure SteamProfile where
  name : String
  steam_id : Nat
  profile_image : String
deriving DecidableEq

/-- Outcome of _linksteam, one constructor per ctx.send path of run.py
294-343.  `conflict` is the outer `except sqlite3.IntegrityError` handler
("already linked to a different Discord account"); note that the failed
INSERT raises inside the inner try whose `except sqlite3.Error` clause
already catches IntegrityError (a subclass), producing
`genericLinkFailure` ("Failed to link your Discord account...") and
returning, so the outer conflict handler is unreachable from the insert. -/
inductive LinkResult
  | invalidShape
  | invalidIdentity
  | profileFailed
  | genericLinkFailure
  | conflict
  | linkedSynced
  | linkedSyncFailed
deriving DecidableEq

/-- Embedding of _linksteam (run.py 294-343).  `validate` models
validate_steam_id, `profile` models get_steam_profile, `owned` models the
GetOwnedGames call of update_owned_games (`none` = request failure).
The Users INSERT is attempted inside the inner try: any sqlite3.Error —
including the IntegrityError raised by a duplicate discord_id or a
steam_id already linked to another member — is caught there and reported
as the generic link failure with no state change. -/
def _linksteam (validate : String → Bool) (profile : String → Option SteamProfile)
    (owned : Nat → Option (List (Nat × String)))
    (db : DB) (discord_id : Nat) (steam_id : String) : LinkResult × DB :=
  if !steamIdShapeOk steam_id then (.invalidShape, db)
  else if !validate steam_id then (.invalidIdentity, db)
  else
    match profile steam_id with
    | none => (.profileFailed, db)
    | some p =>
      match insertUser db discord_id p.steam_id with
      | none => (.genericLinkFailure, db)
      | some db1 =>
        match owned p.steam_id with
        | none => (.linkedSyncFailed, db1)
        | some gs => (.linkedSynced, update_owned_games discord_id gs db1)

/-- Embedding of _unlinksteam (run.py 349-383): look the member's link up;
if present, delete the Users row and every UserGames row of the member and
commit both deletes together; if absent, report "not linked" (the `false`
outcome) and leave the state alone. -/
def _unlinksteam (db : DB) (d : Nat) : Bool × DB :=
  match db.users.find? (fun u => u.discord_id == d) with
  | some _ =>
    (true, { db with
        users := db.users.filter (fun u => !(u.discord_id == d)),
        userGames := db.userGames.filter (fun r => !(r.discord_id == d)) })
  | none => (false, db)

/-- Outcome of _markinterest, one constructor per ctx.send path of run.py
421-471. `markFailed` is the except branch around the UPDATE, which the
embedded storage never takes. -/
inductive MarkResult
  | notLinked
  | gameNotFound
  | markFailed
  | ownershipRequired
  | marked
deriving DecidableEq

/-- Embedding of _markinterest (run.py 421-471): require a Users row,
resolve the token, require a UserGames row for (member, app id) — the
bound app-id parameter is TEXT, compared under INTEGER affinity — and
only then UPDATE interested to TRUE on that row. -/
def _markinterest (score : String → String → Nat)
    (search : String → List SearchEntry) (details : String → Option String)
    (db : DB) (d : Nat) (game : String) : MarkResult × DB :=
  if (db.users.find? (fun u => u.discord_id == d)).isNone then (.notLinked, db)
  else
    match resolveToken score search details db game with
    | none => (.gameNotFound, db)
    | some gi =>
      if db.userGames.any (fun r => r.discord_id == d && appIdMatches gi.app_id r.app_id) then
        (.marked, { db with userGames := db.userGames.map (fun r =>
            if r.discord_id == d && appIdMatches gi.app_id r.app_id then
              { r with interested := true } else r) })
      else (.ownershipRequired, db)

/-- Local-catalog resolution block shared by _removeinterest, _players,
_sendmessage (run.py 497-515, 576-594, 650-668): a digit token is taken as
the app id whether or not a Games row exists (the name is attached only
when one does); any other token must equal a stored name exactly; `none`
is the "No game found" outcome, reached only when the token is
non-numeric and absent. -/
def localResolve (db : DB) (game : String) : Option (Nat × Option String) :=
  if isNumericStr game then
    some (strToNat game,
      (db.games.find? (fun g => g.app_id == strToNat game)).map (fun g => g.name))
  else
    (db.games.find? (fun g => g.name == game)).map (fun g => (g.app_id, some game))

/-- Outcome of _removeinterest, one constructor per ctx.send path of
run.py 486-528. -/
inductive UnmarkResult
  | notLinked
  | gameNotFound
  | unmarked
deriving DecidableEq

/-- Embedding of _removeinterest (run.py 486-528): require a Users row,
resolve the token against the local catalog only, then UPDATE interested
to 0 for (member, app id); a missing relation row makes the UPDATE touch
zero rows and the command still reports success. -/
def _removeinterest (db : DB) (d : Nat) (game : String) : UnmarkResult × DB :=
  if (db.users.find? (fun u => u.discord_id == d)).isNone then (.notLinked, db)
  else
    match localResolve db game with
    | none => (.gameNotFound, db)
    | some (a, _) =>
      (.unmarked, { db with userGames := db.userGames.map (fun r =>
          if r.discord_id == d && r.app_id == a then
            { r with interested := false } else r) })

/-- Chunking of _listinterestedgames (run.py 555): the Python list
comprehension `[s[i:i+2000] for i in range(0, len(s), 2000)]` — one chunk
per index 0, 2000, 4000, ..., i.e. ceil(len/2000) chunks, the k-th being
the 2000-character slice starting at 2000*k. -/
def chunked (s : List Char) : List (List Char) :=
  (List.range ((s.length + 1999) / 2000)).map
    (fun k => (s.drop (2000 * k)).take 2000)

/-- Outcome of _players (run.py 575-623): "No game found", "No players in
this server own ...", or the owner list (pairs discord_id, interested)
under the resolved display name (None when a bare numeric app id has no
Games row). -/
inductive PlayersResult
  | notFoundGame
  | noOwners (gameName : Option String)
  | owners (gameName : Option String) (rows : List (Nat × Bool))
deriving DecidableEq

/-- Embedding of _players (run.py 575-623): resolve the token against the
local catalog only (no provider parameter exists: the handler makes no
HTTP call), then list every UserGames row of the app id. -/
def _players (db : DB) (game : String) : PlayersResult :=
  match localResolve db game with
  | none => .notFoundGame
  | some (a, nm) =>
    let rows := (db.userGames.filter (fun r => r.app_id == a)).map
      (fun r => (r.discord_id, r.interested))
    if rows.isEmpty then .noOwners nm else .owners nm rows

/-- Empty database. -/
def dbEmpty : DB := { users := [], games := [], userGames := [] }

/-- Concrete search response used by the C8 witness: two store entries. -/
def searchW : String → List SearchEntry := fun _ =>
  [{ data_ds_appid := "400",
     href_segments := ["https:", "", "store", "app", "400", "Portal"] },
   { data_ds_appid := "620",
     href_segments := ["https:", "", "store", "app", "620", "Portal_2"] }]

/-- Concrete scoring metric used by the C8 witness. -/
def scoreW : String → String → Nat := fun _ s => s.toList.length

/-- Concrete details oracle used by the C8 witness. -/
def detailsW : String → Option String := fun s =>
  if s == "400" then some "Portal" else none

/-- Concrete database with member 2 already linked to steam id
76561190000000001 (the C1 failing input). -/
def dbConflict : DB :=
  { users := [{ discord_id := 2, steam_id := 76561190000000001 }],
    games := [], userGames := [] }

/-- Concrete database with member 1 already linked. -/
def dbLinked1 : DB :=
  { users := [{ discord_id := 1, steam_id := 76561190000000001 }],
    games := [], userGames := [] }

/-- Concrete database used by several witnesses: member 1 linked and
owning games 10 and 11 (interested in 10), member 2 owning game 10. -/
def dbSample : DB :=
  { users := [{ discord_id := 1, steam_id := 7656119000000001 }],
    games := [{ app_id := 10, name := "Alpha" }, { app_id := 11, name := "Beta" }],
    userGames := [{ discord_id := 1, app_id := 10, interested := true },
                  { discord_id := 1, app_id := 11, interested := false },
                  { discord_id := 2, app_id := 10, interested := false }] }

end GameBot

namespace GameBot

/-- Helper: chunked on the empty string yields no chunks. -/
theorem chunked_nil : chunked [] = [] := rfl

/-- Helper: on a nonempty string, chunked peels off the first 2000
characters and recurses on the rest. -/
theorem chunked_cons (s : List Char) (h : s ≠ []) :
    chunked s = s.take 2000 :: chunked (s.drop 2000) := by
  have hpos : 1 ≤ s.length := List.length_pos.mpr h
  have hdiv : (s.length + 1999) / 2000 = ((s.length - 2000) + 1999) / 2000 + 1 := by
    omega
  unfold chunked
  rw [List.length_drop, hdiv, List.range_succ_eq_map]
  simp only [List.map_cons, List.map_map, Nat.mul_zero, List.drop_zero]
  congr 1
  apply List.map_congr_left
  intro k _
  simp only [Function.comp_apply, List.drop_drop]
  congr 2
  omega

/-- Helper: concatenating the chunks reproduces the input (fuel induction
on an upper bound of the length). -/
theorem chunked_join_aux :
    ∀ (n : Nat) (s : List Char), s.length ≤ n → (chunked s).flatten = s := by
  intro n
  induction n with
  | zero =>
    intro s h
    have : s = [] := List.length_eq_zero.mp (Nat.le_zero.mp h)
    subst this
    simp [chunked_nil]
  | succ n ih =>
    intro s h
    by_cases hs : s = []
    · subst hs; simp [chunked_nil]
    · rw [chunked_cons s hs]
      have hpos : 1 ≤ s.length := List.length_pos.mpr hs
      have hle : (s.drop 2000).length ≤ n := by
        rw [List.length_drop]; omega
      simp only [List.flatten_cons, ih _ hle]
      exact List.take_append_drop 2000 s

/-- Helper: every chunk has at most 2000 characters. -/
theorem chunked_sizes_aux :
    ∀ (n : Nat) (s : List Char), s.length ≤ n →
      ∀ c ∈ chunked s, c.length ≤ 2000 := by
  intro n
  induction n with
  | zero =>
    intro s h c hc
    have : s = [] := List.length_eq_zero.mp (Nat.le_zero.mp h)
    subst this
    simp [chunked_nil] at hc
  | succ n ih =>
    intro s h c hc
    by_cases hs : s = []
    · subst hs; simp [chunked_nil] at hc
    · rw [chunked_cons s hs] at hc
      have hpos : 1 ≤ s.length := List.length_pos.mpr hs
      have hle : (s.drop 2000).length ≤ n := by
        rw [List.length_drop]; omega
      rcases List.mem_cons.mp hc with hc | hc
      · subst hc
        simp [List.length_take]
      · exact ih _ hle c hc

/-- C6: the chunking applied to the listFlagged output is lossless —
concatenating the chunks in order reproduces the input exactly, every
chunk holds at most 2000 characters, and an empty input yields an empty
chunk sequence. -/
theorem chunk_round_trip (s : List Char) :
    (chunked s).flatten = s ∧ (∀ c ∈ chunked s, c.length ≤ 2000) ∧
      chunked [] = [] :=
  ⟨chunked_join_aux s.length s le_rfl,
   chunked_sizes_aux s.length s le_rfl,
   chunked_nil⟩

/-- Witness for C6: on the concrete input "abc" the chunking yields one
chunk, it is within bounds, and re-joining gives "abc" back. -/
theorem chunk_round_trip_witness :
    (chunked "abc".toList).flatten = "abc".toList ∧
      ("abc".toList ∈ chunked "abc".toList → "abc".toList.length ≤ 2000) :=
  ⟨(chunk_round_trip "abc".toList).1,
   fun h => (chunk_round_trip "abc".toList).2.1 _ h⟩

/-- Helper: _unlinksteam when no link exists is a no-op returning false. -/
theorem unlinksteam_of_none (db : DB) (d : Nat)
    (hf : db.users.find? (fun u => u.discord_id == d) = none) :
    _unlinksteam db d = (false, db) := by
  unfold _unlinksteam
  rw [hf]

/-- Helper: _unlinksteam when a link exists deletes the member's rows from
Users and UserGames in one step and returns true. -/
theorem unlinksteam_of_some (db : DB) (d : Nat) (u : UserRow)
    (hf : db.users.find? (fun u => u.discord_id == d) = some u) :
    _unlinksteam db d =
      (true, { db with
          users := db.users.filter (fun u => !(u.discord_id == d)),
          userGames := db.userGames.filter (fun r => !(r.discord_id == d)) }) := by
  unfold _unlinksteam
  rw [hf]

/-- Helper: after any _unlinksteam, the member has no Users row. -/
theorem unlinksteam_clears_link (db : DB) (d : Nat) :
    ((_unlinksteam db d).2).users.find? (fun u => u.discord_id == d) = none := by
  cases hf : db.users.find? (fun u => u.discord_id == d) with
  | none => rw [unlinksteam_of_none db d hf]; exact hf
  | some u =>
    rw [unlinksteam_of_some db d u hf]
    apply List.find?_eq_none.mpr
    intro x hx
    have := (List.mem_filter.mp hx).2
    simp only [Bool.not_eq_true'] at this
    simp [this]

/-- C3: when a link exists, unlinkAccount returns true and deletes the
member's AccountLink row and every OwnershipRelation row of that member
as one state transition, leaving other members' rows and the Games table
untouched; when no link exists it returns false and changes no state; and
immediately after any unlink a second unlink returns false. -/
theorem unlink_atomic (db : DB) (d : Nat) :
    ((db.users.find? (fun u => u.discord_id == d)).isSome →
      (_unlinksteam db d).1 = true ∧
      (_unlinksteam db d).2.users = db.users.filter (fun u => !(u.discord_id == d)) ∧
      (_unlinksteam db d).2.userGames = db.userGames.filter (fun r => !(r.discord_id == d)) ∧
      (_unlinksteam db d).2.games = db.games) ∧
    ((db.users.find? (fun u => u.discord_id == d)).isNone →
      _unlinksteam db d = (false, db)) ∧
    (_unlinksteam (_unlinksteam db d).2 d).1 = false := by
  refine ⟨?_, ?_, ?_⟩
  · intro hs
    rcases Option.isSome_iff_exists.mp hs with ⟨u, hu⟩
    rw [unlinksteam_of_some db d u hu]
    exact ⟨rfl, rfl, rfl, rfl⟩
  · intro hn
    exact unlinksteam_of_none db d (Option.isNone_iff_eq_none.mp hn)
  · rw [unlinksteam_of_none _ d (unlinksteam_clears_link db d)]

/-- Witness for C3: concrete run on a database where member 1 is linked
and owns two games while member 2 keeps a game row. -/
theorem unlink_atomic_witness :
    (dbSample.users.find? (fun u => u.discord_id == 1)).isSome ∧
    (_unlinksteam dbSample 1).1 = true := by
  constructor
  · decide
  · exact ((unlink_atomic dbSample 1).1 (by decide)).1

/-- C9: a member who already has a Users row cannot re-link: even with an
identity that passes the shape check, provider validation and the profile
fetch, the INSERT violates the discord_id primary key, the handler reports
the generic link failure, and the state — in particular the stored
steam_id — is unchanged. -/
theorem relink_insert_fails (validate : String → Bool)
    (profile : String → Option SteamProfile)
    (owned : Nat → Option (List (Nat × String)))
    (db : DB) (d : Nat) (s : String) (p : SteamProfile)
    (hshape : steamIdShapeOk s = true) (hval : validate s = true)
    (hprof : profile s = some p)
    (hlinked : db.users.any (fun u => u.discord_id == d) = true) :
    _linksteam validate profile owned db d s = (.genericLinkFailure, db) := by
  simp [_linksteam, insertUser, hshape, hval, hprof, hlinked]

/-- Witness for C9: member 1 is already linked to steam id 76561190000000001
and tries to link the fresh identity 76561190000000002. -/
theorem relink_insert_fails_witness :
    _linksteam (fun _ => true)
      (fun _ => some { name := "alice", steam_id := 76561190000000002,
                       profile_image := "pic" })
      (fun _ => some [(10, "A")])
      dbLinked1 1 "76561190000000002"
      = (.genericLinkFailure, dbLinked1) :=
  relink_insert_fails _ _ _ _ 1 _ _ (by decide) rfl rfl (by decide)

/-- C1 (behaviour of the code at the failing input): member 1 attempts to
link the steam id already linked to member 2; the identity passes the
shape check, provider validation and the profile fetch, the INSERT
violates the steam_id UNIQUE constraint, and the handler reports the
generic link failure — because the inner `except sqlite3.Error` clause
catches the IntegrityError before the dedicated outer conflict handler
can — while mutating no row. -/
theorem linksteam_conflict_masked :
    _linksteam (fun _ => true)
      (fun _ => some { name := "alice", steam_id := 76561190000000001,
                       profile_image := "pic" })
      (fun _ => some []) dbConflict 1 "76561190000000001"
      = (.genericLinkFailure, dbConflict) ∧
    LinkResult.genericLinkFailure ≠ LinkResult.conflict := by
  constructor
  · decide
  · decide

/-- Helper: a Games upsert on a present key is the identity. -/
theorem insertOrIgnoreGame_of_has (a : Nat) (n : String) (db : DB)
    (h : hasGame db a = true) : insertOrIgnoreGame a n db = db := by
  simp [insertOrIgnoreGame, h]

/-- Helper: a UserGames upsert on a present key is the identity. -/
theorem insertOrIgnoreUserGame_of_has (d a : Nat) (db : DB)
    (h : hasUserGame db d a = true) : insertOrIgnoreUserGame d a db = db := by
  simp [insertOrIgnoreUserGame, h]

/-- Helper: after a Games upsert the key is present. -/
theorem hasGame_insertOrIgnoreGame_self (a : Nat) (n : String) (db : DB) :
    hasGame (insertOrIgnoreGame a n db) a = true := by
  by_cases h : hasGame db a = true
  · rw [insertOrIgnoreGame_of_has a n db h]; exact h
  · simp only [insertOrIgnoreGame]
    rw [if_neg h]
    simp [hasGame, List.any_append]

/-- Helper: a Games upsert preserves present keys. -/
theorem hasGame_insertOrIgnoreGame_mono (a : Nat) (n : String) (db : DB)
    (x : Nat) (h : hasGame db x = true) :
    hasGame (insertOrIgnoreGame a n db) x = true := by
  simp only [insertOrIgnoreGame]
  split
  · exact h
  · simp only [hasGame, List.any_append] at h ⊢
    simp [h]

/-- Helper: a UserGames upsert leaves the Games table alone. -/
theorem games_insertOrIgnoreUserGame (d a : Nat) (db : DB) :
    (insertOrIgnoreUserGame d a db).games = db.games := by
  simp only [insertOrIgnoreUserGame]
  split <;> rfl

/-- Helper: a Games upsert leaves the UserGames table alone. -/
theorem userGames_insertOrIgnoreGame (a : Nat) (n : String) (db : DB) :
    (insertOrIgnoreGame a n db).userGames = db.userGames := by
  simp only [insertOrIgnoreGame]
  split <;> rfl

/-- Helper: hasGame only looks at the Games table. -/
theorem hasGame_congr (db db' : DB) (x : Nat) (h : db'.games = db.games) :
    hasGame db' x = hasGame db x := by
  simp [hasGame, h]

/-- Helper: hasUserGame only looks at the UserGames table. -/
theorem hasUserGame_congr (db db' : DB) (d a : Nat)
    (h : db'.userGames = db.userGames) :
    hasUserGame db' d a = hasUserGame db d a := by
  simp [hasUserGame, h]

/-- Helper: after a UserGames upsert the key is present. -/
theorem hasUserGame_insertOrIgnoreUserGame_self (d a : Nat) (db : DB) :
    hasUserGame (insertOrIgnoreUserGame d a db) d a = true := by
  by_cases h : hasUserGame db d a = true
  · rw [insertOrIgnoreUserGame_of_has d a db h]; exact h
  · simp only [insertOrIgnoreUserGame]
    rw [if_neg h]
    simp [hasUserGame, List.any_append]

/-- Helper: a UserGames upsert preserves present keys. -/
theorem hasUserGame_insertOrIgnoreUserGame_mono (d a : Nat) (db : DB)
    (x y : Nat) (h : hasUserGame db x y = true) :
    hasUserGame (insertOrIgnoreUserGame d a db) x y = true := by
  simp only [insertOrIgnoreUserGame]
  split
  · exact h
  · simp only [hasUserGame, List.any_append] at h ⊢
    simp [h]

/-- Helper: one sync step leaves the Users table alone. -/
theorem syncStep_users (d : Nat) (db : DB) (g : Nat × String) :
    (syncStep d db g).users = db.users := by
  simp only [syncStep, insertOrIgnoreUserGame, insertOrIgnoreGame]
  split <;> split <;> rfl

/-- Helper: one sync step only appends to the Games table. -/
theorem syncStep_games (d : Nat) (db : DB) (g : Nat × String) :
    ∃ t, (syncStep d db g).games = db.games ++ t := by
  simp only [syncStep, games_insertOrIgnoreUserGame, insertOrIgnoreGame]
  split
  · exact ⟨[], by simp⟩
  · exact ⟨_, rfl⟩

/-- Helper: one sync step only appends to the UserGames table. -/
theorem syncStep_userGames (d : Nat) (db : DB) (g : Nat × String) :
    ∃ t, (syncStep d db g).userGames = db.userGames ++ t := by
  simp only [syncStep, insertOrIgnoreUserGame]
  split
  · exact ⟨[], by simp [userGames_insertOrIgnoreGame]⟩
  · refine ⟨[{ discord_id := d, app_id := g.1, interested := false }], ?_⟩
    simp [userGames_insertOrIgnoreGame]

/-- Helper: after one sync step for item g, both rows for g exist. -/
theorem syncStep_saturates (d : Nat) (db : DB) (g : Nat × String) :
    hasGame (syncStep d db g) g.1 = true ∧
      hasUserGame (syncStep d db g) d g.1 = true := by
  constructor
  · show hasGame (insertOrIgnoreUserGame d g.1 (insertOrIgnoreGame g.1 g.2 db)) g.1 = true
    rw [hasGame_congr (insertOrIgnoreGame g.1 g.2 db) _ g.1
      (games_insertOrIgnoreUserGame d g.1 _)]
    exact hasGame_insertOrIgnoreGame_self g.1 g.2 db
  · exact hasUserGame_insertOrIgnoreUserGame_self d g.1 _

/-- Helper: one sync step preserves present Games keys. -/
theorem syncStep_hasGame_mono (d : Nat) (db : DB) (g : Nat × String)
    (x : Nat) (h : hasGame db x = true) : hasGame (syncStep d db g) x = true := by
  show hasGame (insertOrIgnoreUserGame d g.1 (insertOrIgnoreGame g.1 g.2 db)) x = true
  rw [hasGame_congr (insertOrIgnoreGame g.1 g.2 db) _ x
    (games_insertOrIgnoreUserGame d g.1 _)]
  exact hasGame_insertOrIgnoreGame_mono g.1 g.2 db x h

/-- Helper: one sync step preserves present UserGames keys. -/
theorem syncStep_hasUserGame_mono (d : Nat) (db : DB) (g : Nat × String)
    (x y : Nat) (h : hasUserGame db x y = true) :
    hasUserGame (syncStep d db g) x y = true := by
  show hasUserGame (insertOrIgnoreUserGame d g.1 (insertOrIgnoreGame g.1 g.2 db)) x y = true
  apply hasUserGame_insertOrIgnoreUserGame_mono
  rw [hasUserGame_congr db (insertOrIgnoreGame g.1 g.2 db) x y
    (userGames_insertOrIgnoreGame g.1 g.2 db)]
  exact h

/-- Helper: a sync step whose item is already fully present is the identity. -/
theorem syncStep_of_has (d : Nat) (db : DB) (g : Nat × String)
    (hg : hasGame db g.1 = true) (hu : hasUserGame db d g.1 = true) :
    syncStep d db g = db := by
  simp only [syncStep]
  rw [insertOrIgnoreGame_of_has g.1 g.2 db hg]
  exact insertOrIgnoreUserGame_of_has d g.1 db hu

/-- Helper: update_owned_games leaves the Users table alone. -/
theorem update_owned_games_users (d : Nat) (gs : List (Nat × String)) :
    ∀ db : DB, (update_owned_games d gs db).users = db.users := by
  induction gs with
  | nil => intro db; rfl
  | cons g rest ih =>
    intro db
    show (update_owned_games d rest (syncStep d db g)).users = db.users
    rw [ih (syncStep d db g), syncStep_users]

/-- Helper: update_owned_games only appends to the Games table. -/
theorem update_owned_games_games (d : Nat) (gs : List (Nat × String)) :
    ∀ db : DB, ∃ t, (update_owned_games d gs db).games = db.games ++ t := by
  induction gs with
  | nil => intro db; exact ⟨[], by simp [update_owned_games]⟩
  | cons g rest ih =>
    intro db
    obtain ⟨t1, h1⟩ := syncStep_games d db g
    obtain ⟨t2, h2⟩ := ih (syncStep d db g)
    refine ⟨t1 ++ t2, ?_⟩
    show (update_owned_games d rest (syncStep d db g)).games = _
    rw [h2, h1, List.append_assoc]

/-- Helper: update_owned_games only appends to the UserGames table. -/
theorem update_owned_games_userGames (d : Nat) (gs : List (Nat × String)) :
    ∀ db : DB, ∃ t, (update_owned_games d gs db).userGames = db.userGames ++ t := by
  induction gs with
  | nil => intro db; exact ⟨[], by simp [update_owned_games]⟩
  | cons g rest ih =>
    intro db
    obtain ⟨t1, h1⟩ := syncStep_userGames d db g
    obtain ⟨t2, h2⟩ := ih (syncStep d db g)
    refine ⟨t1 ++ t2, ?_⟩
    show (update_owned_games d rest (syncStep d db g)).userGames = _
    rw [h2, h1, List.append_assoc]

/-- Helper: update_owned_games preserves present Games keys. -/
theorem update_owned_games_hasGame_mono (d : Nat) (gs : List (Nat × String)) :
    ∀ db : DB, ∀ x : Nat, hasGame db x = true →
      hasGame (update_owned_games d gs db) x = true := by
  induction gs with
  | nil => intro db x h; exact h
  | cons g rest ih =>
    intro db x h
    exact ih (syncStep d db g) x (syncStep_hasGame_mono d db g x h)

/-- Helper: update_owned_games preserves present UserGames keys. -/
theorem update_owned_games_hasUserGame_mono (d : Nat) (gs : List (Nat × String)) :
    ∀ db : DB, ∀ x y : Nat, hasUserGame db x y = true →
      hasUserGame (update_owned_games d gs db) x y = true := by
  induction gs with
  | nil => intro db x y h; exact h
  | cons g rest ih =>
    intro db x y h
    exact ih (syncStep d db g) x y (syncStep_hasUserGame_mono d db g x y h)

/-- Helper: after update_owned_games every synced item has both rows. -/
theorem update_owned_games_saturates (d : Nat) (gs : List (Nat × String)) :
    ∀ db : DB, ∀ g ∈ gs,
      hasGame (update_owned_games d gs db) g.1 = true ∧
        hasUserGame (update_owned_games d gs db) d g.1 = true := by
  induction gs with
  | nil => intro db g hg; simp at hg
  | cons a rest ih =>
    intro db g hg
    rcases List.mem_cons.mp hg with hg | hg
    · subst hg
      obtain ⟨h1, h2⟩ := syncStep_saturates d db g
      exact ⟨update_owned_games_hasGame_mono d rest _ _ h1,
             update_owned_games_hasUserGame_mono d rest _ _ _ h2⟩
    · exact ih (syncStep d db a) g hg

/-- Helper: update_owned_games on a fully present owned list is the
identity. -/
theorem update_owned_games_of_saturated (d : Nat) (gs : List (Nat × String)) :
    ∀ db : DB,
      (∀ g ∈ gs, hasGame db g.1 = true ∧ hasUserGame db d g.1 = true) →
      update_owned_games d gs db = db := by
  induction gs with
  | nil => intro db _; rfl
  | cons a rest ih =>
    intro db h
    obtain ⟨h1, h2⟩ := h a (List.mem_cons_self a rest)
    show update_owned_games d rest (syncStep d db a) = db
    rw [syncStep_of_has d db a h1 h2]
    exact ih db (fun g hg => h g (List.mem_cons_of_mem a hg))

/-- Helper: a Games upsert keeps the app_id column duplicate-free. -/
theorem insertOrIgnoreGame_nodup (a : Nat) (n : String) (db : DB)
    (h : (db.games.map (fun g => g.app_id)).Nodup) :
    ((insertOrIgnoreGame a n db).games.map (fun g => g.app_id)).Nodup := by
  simp only [insertOrIgnoreGame]
  split
  · exact h
  · rename_i hne
    have habs : a ∉ db.games.map (fun g => g.app_id) := by
      intro hmem
      rcases List.mem_map.mp hmem with ⟨g, hg, hga⟩
      have := List.any_eq_false.mp (Bool.eq_false_iff.mpr hne) g hg
      simp [hga] at this
    simp only [List.map_append, List.map_cons, List.map_nil]
    rw [List.nodup_append]
    exact ⟨h, List.nodup_singleton a, by simpa using habs⟩

/-- Helper: a UserGames upsert keeps the (discord_id, app_id) key
duplicate-free. -/
theorem insertOrIgnoreUserGame_nodup (d a : Nat) (db : DB)
    (h : (db.userGames.map (fun r => (r.discord_id, r.app_id))).Nodup) :
    ((insertOrIgnoreUserGame d a db).userGames.map
      (fun r => (r.discord_id, r.app_id))).Nodup := by
  simp only [insertOrIgnoreUserGame]
  split
  · exact h
  · rename_i hne
    have habs : (d, a) ∉ db.userGames.map (fun r => (r.discord_id, r.app_id)) := by
      intro hmem
      rcases List.mem_map.mp hmem with ⟨r, hr, hra⟩
      have := List.any_eq_false.mp (Bool.eq_false_iff.mpr hne) r hr
      have hd : r.discord_id = d := congrArg Prod.fst hra
      have ha : r.app_id = a := congrArg Prod.snd hra
      simp [hd, ha] at this
    simp only [List.map_append, List.map_cons, List.map_nil]
    rw [List.nodup_append]
    exact ⟨h, List.nodup_singleton _, by simpa using habs⟩

/-- Helper: one sync step preserves both nodup key invariants. -/
theorem syncStep_nodup (d : Nat) (db : DB) (g : Nat × String)
    (hg : (db.games.map (fun g => g.app_id)).Nodup)
    (hu : (db.userGames.map (fun r => (r.discord_id, r.app_id))).Nodup) :
    ((syncStep d db g).games.map (fun g => g.app_id)).Nodup ∧
      ((syncStep d db g).userGames.map
        (fun r => (r.discord_id, r.app_id))).Nodup := by
  constructor
  · rw [show (syncStep d db g).games = (insertOrIgnoreGame g.1 g.2 db).games from
      games_insertOrIgnoreUserGame d g.1 _]
    exact insertOrIgnoreGame_nodup g.1 g.2 db hg
  · apply insertOrIgnoreUserGame_nodup
    rw [userGames_insertOrIgnoreGame]
    exact hu

/-- Helper: update_owned_games preserves both nodup key invariants. -/
theorem update_owned_games_nodup (d : Nat) (gs : List (Nat × String)) :
    ∀ db : DB, (db.games.map (fun g => g.app_id)).Nodup →
      (db.userGames.map (fun r => (r.discord_id, r.app_id))).Nodup →
      ((update_owned_games d gs db).games.map (fun g => g.app_id)).Nodup ∧
        ((update_owned_games d gs db).userGames.map
          (fun r => (r.discord_id, r.app_id))).Nodup := by
  induction gs with
  | nil => intro db hg hu; exact ⟨hg, hu⟩
  | cons a rest ih =>
    intro db hg hu
    obtain ⟨hg', hu'⟩ := syncStep_nodup d db a hg hu
    exact ih (syncStep d db a) hg' hu'

/-- C4: syncing is idempotent and append-only — running
update_owned_games twice with the same owned list equals running it once
(so no relation flag changes and no duplicate row appears on the second
run), the single run only appends to Games and UserGames (so existing
rows, names and flags are never overwritten), the primary-key
duplicate-freedom of both tables is preserved, and Users is untouched. -/
theorem sync_idempotent (d : Nat) (gs : List (Nat × String)) (db : DB)
    (hg : (db.games.map (fun g => g.app_id)).Nodup)
    (hu : (db.userGames.map (fun r => (r.discord_id, r.app_id))).Nodup) :
    update_owned_games d gs (update_owned_games d gs db) =
      update_owned_games d gs db ∧
    (∃ newG, (update_owned_games d gs db).games = db.games ++ newG) ∧
    (∃ newR, (update_owned_games d gs db).userGames = db.userGames ++ newR) ∧
    ((update_owned_games d gs db).games.map (fun g => g.app_id)).Nodup ∧
    ((update_owned_games d gs db).userGames.map
      (fun r => (r.discord_id, r.app_id))).Nodup ∧
    (update_owned_games d gs db).users = db.users := by
  refine ⟨?_, update_owned_games_games d gs db,
    update_owned_games_userGames d gs db,
    (update_owned_games_nodup d gs db hg hu).1,
    (update_owned_games_nodup d gs db hg hu).2,
    update_owned_games_users d gs db⟩
  exact update_owned_games_of_saturated d gs _
    (update_owned_games_saturates d gs db)

/-- C5: with a linked member and a token that resolves, setting the
interested flag to true without a pre-existing UserGames row for
(member, app id) yields the OwnershipRequired outcome ("You don't own")
and mutates nothing. -/
theorem mark_requires_ownership (score : String → String → Nat)
    (search : String → List SearchEntry) (details : String → Option String)
    (db : DB) (d : Nat) (t : String) (gi : GameInfo)
    (hlink : (db.users.find? (fun u => u.discord_id == d)).isSome = true)
    (hres : resolveToken score search details db t = some gi)
    (hown : db.userGames.any
      (fun r => r.discord_id == d && appIdMatches gi.app_id r.app_id) = false) :
    _markinterest score search details db d t = (.ownershipRequired, db) := by
  obtain ⟨u, hu⟩ := Option.isSome_iff_exists.mp hlink
  simp [_markinterest, hu, hres, hown]

/-- Witness for C5: member 1 is linked, token "440" resolves through the
provider, and no UserGames row for (1, 440) exists in dbSample. -/
theorem mark_requires_ownership_witness :
    _markinterest (fun _ _ => 0) (fun _ => [])
      (fun s => if s == "440" then some "Team Fortress 2" else none)
      dbSample 1 "440" = (.ownershipRequired, dbSample) :=
  mark_requires_ownership _ _ _ dbSample 1 "440"
    { app_id := "440", name := "Team Fortress 2" }
    (by decide) (by decide) (by decide)

/-- C7: an entirely numeric token resolves through the details fetch
alone — the outcome equals the provider's answer for exactly that id
string, it is NotFound (none) precisely when the provider reports no
data, and it is independent of the local catalog, the search function
and the scoring metric. -/
theorem numeric_resolve_details_only (details : String → Option String)
    (t : String) (score₁ score₂ : String → String → Nat)
    (search₁ search₂ : String → List SearchEntry) (db₁ db₂ : DB)
    (h : isNumericStr t = true) :
    resolveToken score₁ search₁ details db₁ t
        = (details t).map (fun n => { app_id := t, name := n }) ∧
    (resolveToken score₁ search₁ details db₁ t = none ↔ details t = none) ∧
    resolveToken score₁ search₁ details db₁ t
        = resolveToken score₂ search₂ details db₂ t := by
  refine ⟨by simp [resolveToken, h, get_game_info], ?_, ?_⟩
  · simp only [resolveToken, h, if_true, get_game_info]
    cases details t <;> simp
  · simp [resolveToken, h]

/-- Witness for C7: the numeric token "440" against two different
catalogs, search functions and metrics. -/
theorem numeric_resolve_details_only_witness :
    resolveToken (fun _ _ => 0) (fun _ => [])
        (fun s => if s == "440" then some "Team Fortress 2" else none)
        { users := [], games := [], userGames := [] } "440"
      = resolveToken (fun _ _ => 99)
        (fun _ => [{ data_ds_appid := "10", href_segments := [] }])
        (fun s => if s == "440" then some "Team Fortress 2" else none)
        dbSample "440" :=
  (numeric_resolve_details_only _ "440" _ _ _ _ _ dbSample (by decide)).2.2

/-- C2 counterexample: the UserGames schema carries no `installed`
column — the relation row has the single flag `interested`, so the
claimed second independent flag does not exist in the code. -/
theorem userGames_no_installed_column :
    ¬ ("installed" ∈ userGamesColumns) := by
  simp [userGamesColumns]

/-- Helper: Nat equality tests commute. -/
theorem natBeq_comm (x y : Nat) : (x == y) = (y == x) := by
  by_cases h : x = y
  · subst h; rfl
  · have h1 : (x == y) = false := beq_eq_false_iff_ne.mpr h
    have h2 : (y == x) = false := beq_eq_false_iff_ne.mpr (Ne.symm h)
    rw [h1, h2]

/-- C2 (amended): every relation row carries the single boolean flag
`interested`; for a linked member with an ownership row for the game,
marking interest and then unmarking it brings `interested` back to false
on exactly that row, leaves every other row byte-identical, and leaves
Users and Games unchanged. -/
theorem interested_round_trip (score : String → String → Nat)
    (search : String → List SearchEntry) (details : String → Option String)
    (db : DB) (d a : Nat) (t nm : String)
    (ht : isNumericStr t = true) (hta : strToNat t = a)
    (hdet : details t = some nm)
    (hlink : (db.users.find? (fun u => u.discord_id == d)).isSome = true)
    (hown : db.userGames.any
      (fun r => r.discord_id == d && r.app_id == a) = true) :
    (_markinterest score search details db d t).1 = .marked ∧
    (_removeinterest (_markinterest score search details db d t).2 d t).1
      = .unmarked ∧
    (_removeinterest (_markinterest score search details db d t).2 d t).2.users
      = db.users ∧
    (_removeinterest (_markinterest score search details db d t).2 d t).2.games
      = db.games ∧
    (_removeinterest (_markinterest score search details db d t).2 d t).2.userGames
      = db.userGames.map (fun r =>
          if r.discord_id == d && r.app_id == a then
            { r with interested := false } else r) := by
  obtain ⟨u, hu⟩ := Option.isSome_iff_exists.mp hlink
  have hres : resolveToken score search details db t
      = some { app_id := t, name := nm } := by
    simp [resolveToken, ht, get_game_info, hdet]
  have hfun : (fun r : UserGameRow => r.discord_id == d && appIdMatches t r.app_id)
      = (fun r : UserGameRow => r.discord_id == d && r.app_id == a) := by
    funext r
    simp only [appIdMatches, ht, hta, Bool.true_and]
    congr 1
    exact natBeq_comm a r.app_id
  have hmark : _markinterest score search details db d t
      = (.marked, { db with userGames := db.userGames.map (fun r =>
          if r.discord_id == d && r.app_id == a then
            { r with interested := true } else r) }) := by
    unfold _markinterest
    rw [hu, hres]
    simp only [Option.isNone_some, Bool.false_eq_true, if_false]
    rw [hfun, hown]
    simp
    intro r _
    have hsw : appIdMatches t r.app_id = (r.app_id == a) := by
      rw [show appIdMatches t r.app_id = (a == r.app_id) from by
        simp [appIdMatches, ht, hta]]
      exact natBeq_comm a r.app_id
    simp [hsw]
  have hrem : _removeinterest
      { db with userGames := db.userGames.map (fun r =>
          if r.discord_id == d && r.app_id == a then
            { r with interested := true } else r) } d t
      = (.unmarked,
         { db with userGames := (db.userGames.map (fun r =>
             if r.discord_id == d && r.app_id == a then
               { r with interested := true } else r)).map (fun r =>
             if r.discord_id == d && r.app_id == a then
               { r with interested := false } else r) }) := by
    unfold _removeinterest localResolve
    rw [show ({ db with userGames := db.userGames.map (fun r =>
          if r.discord_id == d && r.app_id == a then
            { r with interested := true } else r) } : DB).users = db.users from rfl]
    rw [hu]
    simp [ht, hta]
  rw [hmark, hrem]
  refine ⟨rfl, rfl, rfl, rfl, ?_⟩
  rw [List.map_map]
  apply List.map_congr_left
  intro r _
  by_cases hc : (r.discord_id == d && r.app_id == a) = true
  · simp [Function.comp, hc]
  · simp [Function.comp, hc]

/-- Witness for C2 (amended): member 1 marks and unmarks game 10 in
dbSample. -/
theorem interested_round_trip_witness :
    (_markinterest (fun _ _ => 0) (fun _ => [])
      (fun s => if s == "10" then some "Alpha" else none) dbSample 1 "10").1
      = .marked ∧
    (_removeinterest (_markinterest (fun _ _ => 0) (fun _ => [])
      (fun s => if s == "10" then some "Alpha" else none) dbSample 1 "10").2
      1 "10").2.userGames
      = dbSample.userGames.map (fun r =>
          if r.discord_id == 1 && r.app_id == 10 then
            { r with interested := false } else r) := by
  have h := interested_round_trip (fun _ _ => 0) (fun _ => [])
    (fun s => if s == "10" then some "Alpha" else none) dbSample 1 10 "10" "Alpha"
    (by decide) (by decide) (by decide) (by decide) (by decide)
  exact ⟨h.1, h.2.2.2.2⟩

/-- Helper: sortDesc on a cons inserts the head into the sorted tail. -/
theorem sortDesc_cons {α : Type} (key : α → Nat) (x : α) (xs : List α) :
    sortDesc key (x :: xs) = insortDesc key x (sortDesc key xs) := rfl

/-- Helper: the head of the stable descending sort is the first
maximum-key element of the input: the input splits as pre ++ e :: post
where every key is at most key e and every key strictly before e is
strictly smaller. -/
theorem sortDesc_head {α : Type} (key : α → Nat) :
    ∀ l : List α, l ≠ [] →
      ∃ pre e post, l = pre ++ e :: post ∧
        (sortDesc key l).head? = some e ∧
        (∀ y ∈ l, key y ≤ key e) ∧
        (∀ y ∈ pre, key y < key e) := by
  intro l
  induction l with
  | nil => intro h; exact absurd rfl h
  | cons x xs ih =>
    intro _
    cases xs with
    | nil =>
      refine ⟨[], x, [], rfl, rfl, ?_, by simp⟩
      intro y hy
      simp at hy
      subst hy
      exact le_rfl
    | cons b bs =>
      obtain ⟨pre, e, post, hsplit, hhead, hmax, hpre⟩ := ih (by simp)
      obtain ⟨tl, htl⟩ : ∃ tl, sortDesc key (b :: bs) = e :: tl := by
        cases hs : sortDesc key (b :: bs) with
        | nil => rw [hs] at hhead; simp at hhead
        | cons h1 t1 =>
          rw [hs] at hhead
          simp at hhead
          subst hhead
          exact ⟨t1, rfl⟩
      by_cases hxe : key e ≤ key x
      · refine ⟨[], x, b :: bs, rfl, ?_, ?_, by simp⟩
        · rw [sortDesc_cons, htl]
          show (if key e ≤ key x then x :: e :: tl
                else e :: insortDesc key x tl).head? = some x
          rw [if_pos hxe]
          rfl
        · intro y hy
          rcases List.mem_cons.mp hy with hy | hy
          · subst hy; exact le_rfl
          · exact le_trans (hmax y hy) hxe
      · push_neg at hxe
        refine ⟨x :: pre, e, post, by rw [hsplit]; rfl, ?_, ?_, ?_⟩
        · rw [sortDesc_cons, htl]
          show (if key e ≤ key x then x :: e :: tl
                else e :: insortDesc key x tl).head? = some e
          rw [if_neg (not_le.mpr hxe)]
          rfl
        · intro y hy
          rcases List.mem_cons.mp hy with hy | hy
          · subst hy; exact le_of_lt hxe
          · exact hmax y hy
        · intro y hy
          rcases List.mem_cons.mp hy with hy | hy
          · subst hy; exact hxe
          · exact hpre y hy

/-- C8: when the local LIKE lookup has no match and the provider search
returns a non-empty ordered list, search_steam_game fetches details for
the app id extracted from the entry whose raw data-ds-appid identifier
scores highest against the token under the fuzzy metric, with score ties
broken in favour of the entry earliest in the original order. -/
theorem search_selects_first_max (score : String → String → Nat)
    (search : String → List SearchEntry) (details : String → Option String)
    (db : DB) (t : String)
    (hloc : localLike db t = none) (hne : search t ≠ []) :
    ∃ pre e post,
      search t = pre ++ e :: post ∧
      search_steam_game score search details db t
        = get_game_info details (extract_app_id e) ∧
      (∀ y ∈ search t, score t y.data_ds_appid ≤ score t e.data_ds_appid) ∧
      (∀ y ∈ pre, score t y.data_ds_appid < score t e.data_ds_appid) := by
  obtain ⟨pre, e, post, hsplit, hhead, hmax, hpre⟩ :=
    sortDesc_head (fun r => score t r.data_ds_appid) (search t) hne
  refine ⟨pre, e, post, hsplit, ?_, hmax, hpre⟩
  have hemp : (search t).isEmpty = false := by
    cases hs : search t with
    | nil => exact absurd hs hne
    | cons a l => rfl
  unfold search_steam_game
  rw [hloc]
  simp only [hemp, Bool.false_eq_true, if_false, hhead]

/-- Witness for C8: a concrete two-entry search response where the second
entry scores strictly higher; the query resolves to its extracted app id. -/
theorem search_selects_first_max_witness :
    ∃ pre e post,
      searchW "portal" = pre ++ e :: post ∧
      search_steam_game scoreW searchW detailsW dbEmpty "portal"
        = get_game_info detailsW (extract_app_id e) ∧
      (∀ y ∈ searchW "portal",
        scoreW "portal" y.data_ds_appid ≤ scoreW "portal" e.data_ds_appid) ∧
      (∀ y ∈ pre, scoreW "portal" y.data_ds_appid < scoreW "portal" e.data_ds_appid) :=
  search_selects_first_max scoreW searchW detailsW dbEmpty "portal"
    (by decide) (by decide)

/-- C10 counterexample: the players query with the numeric token "440"
against an empty catalog does not report "No game found" — the bare
numeric app id is accepted without any Games row and the handler proceeds
to the (empty) owner query instead. -/
theorem players_numeric_no_catalog :
    _players dbEmpty "440" = PlayersResult.noOwners none ∧
    _players dbEmpty "440" ≠ PlayersResult.notFoundGame := by
  constructor
  · decide
  · decide

/-- C10 (amended): the players query resolves tokens only against the
local catalog — the handler takes no provider capability at all — and a
non-numeric token must equal a stored name exactly, yielding NotFound
when absent; a numeric token is taken as the app id directly whether or
not it appears in the Games table, so it never yields NotFound. -/
theorem players_local_resolution (db : DB) (t : String) :
    (isNumericStr t = true → _players db t ≠ PlayersResult.notFoundGame) ∧
    (isNumericStr t = false →
      db.games.find? (fun g => g.name == t) = none →
      _players db t = PlayersResult.notFoundGame) := by
  constructor
  · intro h
    unfold _players localResolve
    simp only [h, if_true]
    split <;> simp
  · intro h hf
    unfold _players localResolve
    simp [h, hf]

/-- Witness for C10: a non-numeric token absent from the empty catalog is
reported as "No game found". -/
theorem players_local_resolution_witness :
    _players dbEmpty "hello" = PlayersResult.notFoundGame :=
  (players_local_resolution dbEmpty "hello").2 (by decide) (by decide)

/-- Witness for C4: concrete double sync of a two-item owned list against
dbSample (game 10 already known, game 42 new). -/
theorem sync_idempotent_witness :
    update_owned_games 1 [(10, "Alpha"), (42, "Gamma")]
        (update_owned_games 1 [(10, "Alpha"), (42, "Gamma")] dbSample) =
      update_owned_games 1 [(10, "Alpha"), (42, "Gamma")] dbSample ∧
    (dbSample.games.map (fun g => g.app_id)).Nodup :=
  ⟨(sync_idempotent 1 [(10, "Alpha"), (42, "Gamma")] dbSample
      (by decide) (by decide)).1,
   by decide⟩

end GameBot
